import Mathlib

/-!
Verification development for the EMIS Benchmark Dashboard (`app.py`).

The Python application is shallowly embedded:
* Python/JSON values are the inductive `Json` (Python numbers are modelled by
  `Rat`, which identifies `300` with `300.0` exactly as Python `==` does);
* Python dicts are insertion-ordered association lists; `dict(items)` and
  `row.update(...)` become `pyDict` / `pyDictUpdate`, whose upsert keeps the
  first position of a key and the last value, as CPython does;
* fallible Python code (uncaught `KeyError` / `ValueError` / `TypeError`)
  returns `Except String`;
* the remote EMIS service is an oracle record of functions, and file I/O is a
  map from path to optional parsed content.
-/

/-- A Python/JSON value.  `num` carries a `Rat`: Python `int` and `float`
values compare by numeric equality, which `Rat` equality models. -/
inductive Json where
  | str : String → Json
  | num : Rat → Json
  | bool : Bool → Json
  | null : Json
  | arr : List Json → Json
  | obj : List (String × Json) → Json

/-- Python truthiness (`bool(x)`): `None`, `False`, `0`, `""`, `[]`, `{}` are
falsy, everything else is truthy. -/
def pyTruthy : Json → Bool
  | .null => false
  | .bool b => b
  | .num q => decide (q ≠ 0)
  | .str s => decide (s ≠ "")
  | .arr l => !l.isEmpty
  | .obj l => !l.isEmpty

/-- First-match lookup in an insertion-ordered dict (`d[k]` / `d.get(k)` on a
present key returns the stored value; keys here are Python `str`). -/
def lookupStr (l : List (String × Json)) (k : String) : Option Json :=
  match l with
  | [] => none
  | p :: rest => if p.1 = k then some p.2 else lookupStr rest k

/-- `d.get(k)` with default `None`, on a mapping.  A non-mapping receiver
would raise `AttributeError` in Python; the claims below never evaluate this
on a non-mapping except where noted in their statements. -/
def jsonGetD (j : Json) (k : String) : Json :=
  match j with
  | .obj l => (lookupStr l k).getD .null
  | _ => .null

/-- Subscripting `d[k]`, which raises `KeyError` on a missing key and
`TypeError` on a non-mapping. -/
def jsonGetE (j : Json) (k : String) : Except String Json :=
  match j with
  | .obj l =>
      match lookupStr l k with
      | some v => .ok v
      | none => .error "KeyError"
  | _ => .error "TypeError"

/-- Python `a or b`: `a` if truthy, else `b`. -/
def pyOr (a b : Json) : Json := if pyTruthy a then a else b

/-- Python `str(x)` restricted to the value shapes the data files and API use
(strings, integers, booleans, `None`).  A non-integral `Rat` is rendered as a
fraction, which differs from CPython float printing; no claim evaluates it. -/
def pyStr : Json → String
  | .str s => s
  | .num q => if q.den = 1 then toString q.num else toString q.num ++ "/" ++ toString q.den
  | .bool b => if b then "True" else "False"
  | .null => "None"
  | .arr _ => "[...]"
  | .obj _ => "{...}"

/-- Core of Python `str.title()`: a letter starts a word (and is uppercased)
iff the previous character is not a letter; other letters are lowercased. -/
def titleChars : List Char → Bool → List Char
  | [], _ => []
  | c :: cs, prevAlpha =>
      if c.isAlpha then
        (if prevAlpha then c.toLower else c.toUpper) :: titleChars cs true
      else
        c :: titleChars cs false

/-- Python `s.title()`. -/
def pyTitle (s : String) : String := ⟨titleChars s.data false⟩

/-- Python `s.replace("_", "")`. -/
def stripUnderscores (s : String) : String := ⟨s.data.filter (fun c => c ≠ '_')⟩

/-- The per-segment key transform of `_flatten_dict`:
`k.title().replace('_', '')`. -/
def flatSeg (k : String) : String := stripUnderscores (pyTitle k)

/-- `parent_key + sep + seg if parent_key else seg` with `sep = '_'`
(`_flatten_dict` is only ever called with the default separator). -/
def joinKey (parentKey seg : String) : String :=
  if parentKey = "" then seg else parentKey ++ "_" ++ seg

/-- One CPython dict upsert: assigning to an existing key keeps its position
and replaces the value; a new key is appended. -/
def pyUpsert (acc : List (String × Json)) (k : String) (v : Json) :
    List (String × Json) :=
  if k ∈ acc.map Prod.fst then
    acc.map (fun p => if p.1 = k then (k, v) else p)
  else
    acc ++ [(k, v)]

/-- `row.update(items)` / folding a pair stream into an existing dict. -/
def pyDictUpdate (row : List (String × Json)) (items : List (String × Json)) :
    List (String × Json) :=
  items.foldl (fun acc p => pyUpsert acc p.1 p.2) row

/-- Python `dict(items)` on a list of pairs. -/
def pyDict (items : List (String × Json)) : List (String × Json) :=
  pyDictUpdate [] items

mutual

/-- Body of `_flatten_dict`'s loop for a single `(k, v)` item whose new key is
already computed: a nested dict is flattened recursively (the recursive result
is itself a `dict(...)`, as the code writes
`self._flatten_dict(v, new_key).items()`); any other value becomes one pair. -/
def flattenValue (newKey : String) : Json → List (String × Json)
  | .obj inner => pyDict (flattenItems newKey inner)
  | x => [(newKey, x)]

/-- The item stream built by `EMISDashboardApp._flatten_dict(d, parent_key)`
over `d.items()`. -/
def flattenItems (parentKey : String) : List (String × Json) → List (String × Json)
  | [] => []
  | (k, v) :: rest =>
      flattenValue (joinKey parentKey (flatSeg k)) v ++ flattenItems parentKey rest

end

/-- `EMISDashboardApp._flatten_dict(d, parent_key)`; only ever applied to
mappings in the code. -/
def flattenDict (parentKey : String) : Json → List (String × Json)
  | .obj l => pyDict (flattenItems parentKey l)
  | _ => []

example : flattenItems "" [("a_b", .num 1), ("c", .obj [("d_e", .str "x")])] =
    [("AB", .num 1), ("C_DE", .str "x")] := rfl

example : flattenDict "Benchmark" (.obj [("benchmark_score", .num 72.5)]) =
    [("Benchmark_BenchmarkScore", .num 72.5)] := rfl

example : flattenDict "Benchmark" (.obj [("benchmarkScore", .num 72.5)]) =
    [("Benchmark_Benchmarkscore", .num 72.5)] := rfl

example : flattenDict "" (.obj [("ab", .num 1), ("AB", .num 2)]) =
    [("Ab", .num 2)] := rfl

/-- `CompanyInfo` dataclass.  `id` and `name` are left as `Json` because the
local-cache branch fills them from raw JSON without coercion; the tax id is
always a Python `str` in both branches. -/
structure CompanyInfo where
  id : Json
  name : Json
  externalId : String

/-- One element of `search_results`: the dict
`{"company_info": ..., "benchmark_data": ...}`.  `benchmarkData` is a `Json`
in which `null` stands for Python `None` (both `get_company_benchmark`
returning `None` and an absent/`None` cached field). -/
structure ResultEntry where
  companyInfo : Option CompanyInfo
  benchmarkData : Json

/-- The remote EMIS API as an oracle.  `matchCompany nit` is the
`(company_id, company_name)` of the first item of a successful non-empty
`companies_match_get` response, and `none` when the response is empty or an
`ApiException` occurs (both of which `find_company_by_external_id` maps to
`None`).  `getBenchmark` is the result of `get_company_benchmark` (`null` for
"no data" and for API errors). -/
structure Service where
  matchCompany : String → Option (Json × Json)
  getBenchmark : Json → Json

/-- `EMISService.find_company_by_external_id(external_id)`: on a match it
builds `CompanyInfo(id=items[0].company_id, name=items[0].company_name,
external_id=external_id)` — the tax id stored is always the one searched. -/
def findCompanyByExternalId (svc : Service) (nit : String) : Option CompanyInfo :=
  (svc.matchCompany nit).map (fun p => ⟨p.1, p.2, nit⟩)

/-- The key under which `load_local_benchmarks` stores a cache item:
`str(item['company_info']['nit'])`. -/
def benchKey (item : Json) : Except String String :=
  match jsonGetE item "company_info" with
  | .error e => .error e
  | .ok ci =>
      match jsonGetE ci "nit" with
      | .error e => .error e
      | .ok n => .ok (pyStr n)

/-- Element-by-element comprehension over a JSON list, an exception aborting
the remainder, as in Python. -/
def mapExcept {α : Type} (f : Json → Except String α) :
    List Json → Except String (List α)
  | [] => .ok []
  | x :: rest =>
      match f x with
      | .error e => .error e
      | .ok y =>
          match mapExcept f rest with
          | .error e => .error e
          | .ok ys => .ok (y :: ys)

/-- The dict comprehension of `load_local_benchmarks`:
`{str(item['company_info']['nit']): item for item in data}` (a comprehension
with duplicate keys upserts exactly like `dict(...)`). -/
def buildBenchStore (data : Json) : Except String (List (String × Json)) :=
  match data with
  | .arr items =>
      match mapExcept (fun it => (benchKey it).map (fun k => (k, it))) items with
      | .error e => .error e
      | .ok pairs => .ok (pyDict pairs)
  | _ => .error "TypeError"

/-- `load_local_benchmarks(file_path)`: the filesystem is a map from path to
the parsed JSON content of an existing file; a missing file raises
`FileNotFoundError`, which the function catches, returning `{}`. -/
def loadLocalBenchmarks (fs : String → Option Json) (filePath : String) :
    Except String (List (String × Json)) :=
  match fs filePath with
  | none => .ok []
  | some data => buildBenchStore data

/-- The dict comprehension of `load_industry_names`:
`{item['code']: item['name'] for item in data}`.  Its keys are raw JSON
values, so the store is an association list over `Json` keys; the data files
use string/int codes, and an unhashable key (list/dict) would raise in
Python — such pairs are appended verbatim here and never matched by the
string lookups below. -/
def buildIndustryStore (data : Json) : Except String (List (Json × Json)) :=
  match data with
  | .arr items => mapExcept (fun it =>
      match jsonGetE it "code" with
      | .error e => .error e
      | .ok c =>
          match jsonGetE it "name" with
          | .error e => .error e
          | .ok n => .ok (c, n)) items
  | _ => .error "TypeError"

/-- `load_industry_names(file_path)`; missing file yields `{}`. -/
def loadIndustryNames (fs : String → Option Json) (filePath : String) :
    Except String (List (Json × Json)) :=
  match fs filePath with
  | none => .ok []
  | some data => buildIndustryStore data

/-- `industry_map.get(key, default)` where the lookup key is always a Python
`str` built by `str(...)`: only `str` keys can compare equal to it. -/
def industryMapGet (imap : List (Json × Json)) (k : String) (dflt : Json) : Json :=
  match imap with
  | [] => dflt
  | p :: rest =>
      match p.1 with
      | .str s => if s = k then p.2 else industryMapGet rest k dflt
      | _ => industryMapGet rest k dflt

/-- The cached branch of `_handle_search`'s loop body: build a `CompanyInfo`
from `local_data["company_info"]` (raising `KeyError` if a field is missing)
and take `local_data.get("benchmark_data")` as the payload. -/
def localEntry (item : Json) : Except String ResultEntry :=
  match jsonGetE item "company_info" with
  | .error e => .error e
  | .ok ci =>
      match jsonGetE ci "company_id" with
      | .error e => .error e
      | .ok cid =>
          match jsonGetE ci "company_name" with
          | .error e => .error e
          | .ok cname =>
              match jsonGetE ci "nit" with
              | .error e => .error e
              | .ok cnit =>
                  .ok ⟨some ⟨cid, cname, pyStr cnit⟩, jsonGetD item "benchmark_data"⟩

/-- One iteration of `_handle_search`'s loop for tax id `nit`: consult the
local store first; otherwise resolve remotely and, only if resolved, fetch the
benchmark.  `none` means the iteration appended nothing. -/
def processNit (store : List (String × Json)) (svc : Service) (nit : String) :
    Except String (Option ResultEntry) :=
  match lookupStr store nit with
  | some item =>
      match localEntry item with
      | .error e => .error e
      | .ok entry => .ok (some entry)
  | none =>
      match findCompanyByExternalId svc nit with
      | some ci => .ok (some ⟨some ci, svc.getBenchmark ci.id⟩)
      | none => .ok none

/-- The remote calls issued by that same loop iteration. -/
inductive RemoteCall where
  | matchCompanies (externalId : String)
  | companyBenchmark (companyId : Json)

/-- Call trace of one loop iteration of `_handle_search`: the cached branch
issues no remote call; the fallback branch always issues the match call and,
when it resolves, the benchmark call. -/
def processNitCalls (store : List (String × Json)) (svc : Service)
    (nit : String) : List RemoteCall :=
  match lookupStr store nit with
  | some _ => []
  | none =>
      match findCompanyByExternalId svc nit with
      | some ci => [.matchCompanies nit, .companyBenchmark ci.id]
      | none => [.matchCompanies nit]

/-- The whole `_handle_search` batch loop producing `all_results`; an uncaught
exception in any iteration aborts the batch. -/
def runBatch (store : List (String × Json)) (svc : Service) :
    List String → Except String (List ResultEntry)
  | [] => .ok []
  | nit :: rest =>
      match processNit store svc nit with
      | .error e => .error e
      | .ok entry =>
          match runBatch store svc rest with
          | .error e => .error e
          | .ok tail =>
              .ok (match entry with
                   | some x => x :: tail
                   | none => tail)

/-- `benchmark_data.get('financial_scores') or benchmark_data.get('financialScores')`. -/
def resolveScores (benchmarkData : Json) : Json :=
  pyOr (jsonGetD benchmarkData "financial_scores") (jsonGetD benchmarkData "financialScores")

/-- The section loop body of `_prepare_data_for_excel`: a dict-valued section
is flattened with `parent_key=section_name.title()` and merged by
`row.update(...)`; any other section value is stored under
`section_name.title().replace('_', '')`. -/
def applySection (row : List (String × Json)) (sectionName : String)
    (sectionData : Json) : List (String × Json) :=
  match sectionData with
  | .obj inner => pyDictUpdate row (flattenDict (pyTitle sectionName) (.obj inner))
  | x => pyUpsert row (stripUnderscores (pyTitle sectionName)) x

/-- One flat row of `_prepare_data_for_excel` for one per-industry score
block: the fixed identity columns, then `Nombre Industria`, then every section
of the block. -/
def rowOfScore (imap : List (Json × Json)) (ci : CompanyInfo) (score : Json) :
    List (String × Json) :=
  let base : List (String × Json) :=
    [("NIT Buscado", .str ci.externalId), ("Nombre Empresa", ci.name),
     ("ID EMIS", ci.id)]
  let icode := pyOr (jsonGetD score "industry_code") (jsonGetD score "industryCode")
  let iname :=
    industryMapGet imap (if pyTruthy icode then pyStr icode else "") (.str "N/A")
  let row1 := pyUpsert base "Nombre Industria" iname
  match score with
  | .obj sections => sections.foldl (fun row p => applySection row p.1 p.2) row1
  | _ => row1

/-- The rows `_prepare_data_for_excel` appends for one search result: nothing
when the payload is falsy, the resolved score field is falsy, or the company
info is missing; otherwise one row per score block.  A truthy non-list score
field or a non-dict block, which would raise `TypeError` in Python, likewise
contributes nothing here. -/
def rowsOfResult (imap : List (Json × Json)) (e : ResultEntry) :
    List (List (String × Json)) :=
  if pyTruthy e.benchmarkData then
    let fs := resolveScores e.benchmarkData
    if pyTruthy fs then
      match e.companyInfo with
      | some ci =>
          match fs with
          | .arr blocks => blocks.map (rowOfScore imap ci)
          | _ => []
      | none => []
    else []
  else []

/-- `_prepare_data_for_excel(search_results)`: the accumulated `flat_data`
list (one element per emitted spreadsheet row). -/
def prepareDataForExcel (imap : List (Json × Json)) (results : List ResultEntry) :
    List (List (String × Json)) :=
  results.foldl (fun acc e => acc ++ rowsOfResult imap e) []

/-- Column lookup in a finished flat row. -/
def rowGet (row : List (String × Json)) (k : String) : Option Json :=
  (row.find? (fun p => p.1 = k)).map Prod.snd

/-- The per-industry tab title of `UIComponents.render_benchmark_data`:
`f"{industry_map.get(str(code), 'Indus.')} ({code})"` where `code` is
`s.get('industry_code') or s.get('industryCode')`. -/
def tabLabel (imap : List (Json × Json)) (score : Json) : String :=
  let icode := pyOr (jsonGetD score "industry_code") (jsonGetD score "industryCode")
  pyStr (industryMapGet imap (pyStr icode) (.str "Indus.")) ++ " (" ++ pyStr icode ++ ")"

/-- A minimal model of Python `float(str)` string parsing: optional sign, then
digits with at most one decimal point (and at least one digit).  It rejects
every string CPython rejects, in particular `"N/A"`. -/
def parseFloatSplit (s : List Char) : Option Rat :=
  match s.span (fun c => c ≠ '.') with
  | (intPart, rest) =>
      match rest with
      | [] =>
          if intPart ≠ [] ∧ intPart.all Char.isDigit then
            some ((intPart.foldl (fun a c => a * 10 + (c.toNat - 48)) 0 : Nat) : Rat)
          else none
      | _ :: fracPart =>
          if (intPart ≠ [] ∨ fracPart ≠ []) ∧ intPart.all Char.isDigit ∧
              fracPart.all Char.isDigit then
            some (((intPart.foldl (fun a c => a * 10 + (c.toNat - 48)) 0 : Nat) : Rat) +
              ((fracPart.foldl (fun a c => a * 10 + (c.toNat - 48)) 0 : Nat) : Rat) /
                (10 : Rat) ^ fracPart.length)
          else none

/-- ASCII whitespace, which `float(str)` ignores at both ends. -/
def isPySpace (c : Char) : Bool :=
  c = ' ' || c = '\t' || c = '\n' || c = '\r'

/-- Strip leading and trailing whitespace. -/
def trimChars (l : List Char) : List Char :=
  ((l.dropWhile isPySpace).reverse.dropWhile isPySpace).reverse

/-- Python `float(s)` on a string (sign, digits, optional single point; no
exponent/inf/nan, which the data never uses). -/
def pyParseFloat (s : String) : Option Rat :=
  match trimChars s.data with
  | '+' :: rest => parseFloatSplit rest
  | '-' :: rest => (parseFloatSplit rest).map Neg.neg
  | rest => parseFloatSplit rest

/-- Python `float(x)`: numbers and booleans convert, strings are parsed
(raising `ValueError` on failure), anything else raises `TypeError`. -/
def pyFloat : Json → Except String Rat
  | .num q => .ok q
  | .bool b => .ok (if b then 1 else 0)
  | .str s =>
      match pyParseFloat s with
      | some q => .ok q
      | none => .error "ValueError"
  | _ => .error "TypeError"

/-- `benchmark_info.get('benchmark_score', benchmark_info.get('benchmarkScore', 0))`. -/
def selectScore (benchmarkInfo : Json) : Json :=
  match benchmarkInfo with
  | .obj l =>
      match lookupStr l "benchmark_score" with
      | some v => v
      | none => (lookupStr l "benchmarkScore").getD (.num 0)
  | _ => .num 0

/-- `benchmark_info.get('average_ranking', benchmark_info.get('averageRanking', 0))`. -/
def selectRanking (benchmarkInfo : Json) : Json :=
  match benchmarkInfo with
  | .obj l =>
      match lookupStr l "average_ranking" with
      | some v => v
      | none => (lookupStr l "averageRanking").getD (.num 0)
  | _ => .num 0

/-- The benchmark-score coercion of `render_benchmark_data`:
`float(benchmark_info.get('benchmark_score', benchmark_info.get('benchmarkScore', 0)) or 0)`. -/
def coerceScore (benchmarkInfo : Json) : Except String Rat :=
  pyFloat (pyOr (selectScore benchmarkInfo) (.num 0))

/-- The average-ranking coercion of `render_benchmark_data`. -/
def coerceRanking (benchmarkInfo : Json) : Except String Rat :=
  pyFloat (pyOr (selectRanking benchmarkInfo) (.num 0))

/-- `EMISDashboardApp.PAGE_SIZE`. -/
def pageSizeConst : Nat := 10

/-- The slice `results[start_idx:end_idx]` of `_render_main_app` with
`start_idx = (current_page - 1) * PAGE_SIZE` and
`end_idx = current_page * PAGE_SIZE` (Python slicing with these non-negative
bounds is drop-then-take). -/
def pageSlice {α : Type} (results : List α) (currentPage : Nat) : List α :=
  (results.drop ((currentPage - 1) * pageSizeConst)).take
    (currentPage * pageSizeConst - (currentPage - 1) * pageSizeConst)

/-- `total_pages = (total_results + page_size - 1) // page_size` from
`render_pagination_controls`. -/
def totalPages (totalResults pageSize : Nat) : Nat :=
  (totalResults + pageSize - 1) / pageSize

/-- Whether `render_pagination_controls` renders anything: it returns
immediately when `total_pages <= 1`. -/
def paginationVisible (totalResults pageSize : Nat) : Bool :=
  decide (1 < totalPages totalResults pageSize)

/-- The two navigation requests the pagination controls offer. -/
inductive NavEvent where
  | prevPage
  | nextPage

/-- Effect of a navigation request on `current_page`: nothing is rendered
when `total_pages <= 1` (so the request cannot fire), the previous-page
button is disabled at page 1, and the next-page button at the last page;
otherwise the page is decremented / incremented. -/
def navStep (totalResults pageSize current : Nat) : NavEvent → Nat
  | .prevPage =>
      if totalPages totalResults pageSize ≤ 1 then current
      else if current = 1 then current else current - 1
  | .nextPage =>
      if totalPages totalResults pageSize ≤ 1 then current
      else if current = totalPages totalResults pageSize then current
      else current + 1

/-- Keys of a pair stream after dedup, keeping first occurrences, relative to
keys already `seen`. -/
def firstDedupFrom (seen : List String) : List String → List String
  | [] => []
  | k :: ks =>
      if k ∈ seen then firstDedupFrom seen ks
      else k :: firstDedupFrom (k :: seen) ks

/-- First-occurrence dedup of a key stream. -/
def firstDedup (l : List String) : List String := firstDedupFrom [] l

/-- The value the LAST pair with key `k` carries in a pair stream. -/
def lookupLast (items : List (String × Json)) (k : String) : Option Json :=
  match items with
  | [] => none
  | p :: rest =>
      match lookupLast rest k with
      | some v => some v
      | none => if p.1 = k then some p.2 else none

theorem map_fst_replace (acc : List (String × Json)) (k : String) (v : Json) :
    (acc.map (fun p => if p.1 = k then (k, v) else p)).map Prod.fst =
      acc.map Prod.fst := by
  induction acc with
  | nil => rfl
  | cons p rest ih =>
      by_cases h : p.1 = k
      · simp [h, ih]
      · simp [h, ih]

theorem pyUpsert_map_fst (acc : List (String × Json)) (k : String) (v : Json) :
    (pyUpsert acc k v).map Prod.fst =
      if k ∈ acc.map Prod.fst then acc.map Prod.fst
      else acc.map Prod.fst ++ [k] := by
  by_cases h : k ∈ acc.map Prod.fst
  · simp only [pyUpsert, if_pos h]
    exact map_fst_replace acc k v
  · simp [pyUpsert, h]

theorem firstDedupFrom_congr (l : List String) :
    ∀ s t : List String, (∀ x, x ∈ s ↔ x ∈ t) →
      firstDedupFrom s l = firstDedupFrom t l := by
  induction l with
  | nil => intro s t _; rfl
  | cons k ks ih =>
      intro s t hst
      by_cases h : k ∈ s
      · simp [firstDedupFrom, h, (hst k).1 h, ih s t hst]
      · have h2 : k ∉ t := fun hh => h ((hst k).2 hh)
        simp only [firstDedupFrom, if_neg h, if_neg h2]
        exact congrArg (k :: ·) (ih (k :: s) (k :: t) (by intro x; simp [hst x]))

theorem pyDictUpdate_map_fst (items : List (String × Json)) :
    ∀ acc, (pyDictUpdate acc items).map Prod.fst =
      acc.map Prod.fst ++
        firstDedupFrom (acc.map Prod.fst) (items.map Prod.fst) := by
  induction items with
  | nil => intro acc; simp [pyDictUpdate, firstDedupFrom]
  | cons p rest ih =>
      intro acc
      have hstep : pyDictUpdate acc (p :: rest) =
          pyDictUpdate (pyUpsert acc p.1 p.2) rest := rfl
      rw [hstep, ih]
      by_cases h : p.1 ∈ acc.map Prod.fst
      · rw [pyUpsert_map_fst, if_pos h]
        simp [firstDedupFrom, h]
      · rw [pyUpsert_map_fst, if_neg h]
        have hcg := firstDedupFrom_congr (rest.map Prod.fst)
          (acc.map Prod.fst ++ [p.1]) (p.1 :: acc.map Prod.fst)
          (by intro x; simp [or_comm])
        rw [hcg]
        simp [firstDedupFrom, h, List.append_assoc]

/-- Keys of `dict(items)` are the first-occurrence dedup of the stream's keys;
in particular final key order is first-seen order. -/
theorem pyDict_map_fst (items : List (String × Json)) :
    (pyDict items).map Prod.fst = firstDedup (items.map Prod.fst) := by
  have h := pyDictUpdate_map_fst items []
  simpa [pyDict, firstDedup] using h

theorem pyDictUpdate_of_nodup (items : List (String × Json)) :
    ∀ acc, (((acc ++ items).map Prod.fst).Nodup) →
      pyDictUpdate acc items = acc ++ items := by
  induction items with
  | nil => intro acc _; simp [pyDictUpdate]
  | cons p rest ih =>
      intro acc h
      rw [List.map_append] at h
      have hd := (List.nodup_append.1 h).2.2
      have hp : p.1 ∉ acc.map Prod.fst := fun hmem => hd hmem (by simp)
      have hstep : pyDictUpdate acc (p :: rest) =
          pyDictUpdate (pyUpsert acc p.1 p.2) rest := rfl
      rw [hstep]
      have hup : pyUpsert acc p.1 p.2 = acc ++ [p] := by
        simp [pyUpsert, hp]
      rw [hup, ih (acc ++ [p]) (by simpa using h)]
      simp

/-- `dict(items)` is the identity on a stream with pairwise-distinct keys. -/
theorem pyDict_of_nodup (items : List (String × Json))
    (h : (items.map Prod.fst).Nodup) : pyDict items = items := by
  have := pyDictUpdate_of_nodup items [] (by simpa using h)
  simpa [pyDict] using this

theorem mem_pyUpsert (acc : List (String × Json)) (k : String) (v : Json)
    (p : String × Json) (h : p ∈ pyUpsert acc k v) :
    p ∈ acc ∨ p = (k, v) := by
  unfold pyUpsert at h
  by_cases hk : k ∈ acc.map Prod.fst
  · rw [if_pos hk] at h
    rcases List.mem_map.1 h with ⟨r, hr, he⟩
    by_cases hx : r.1 = k
    · right; rw [← he]; simp [hx]
    · left; rw [← he]; simpa [hx] using hr
  · rw [if_neg hk] at h
    rcases List.mem_append.1 h with h1 | h2
    · exact .inl h1
    · right; simpa using h2

theorem mem_pyDictUpdate_cases (items : List (String × Json)) :
    ∀ acc (p : String × Json), p ∈ pyDictUpdate acc items →
      p ∈ acc ∨ p ∈ items := by
  induction items with
  | nil => intro acc p h; exact .inl (by simpa [pyDictUpdate] using h)
  | cons q rest ih =>
      intro acc p h
      have hstep : pyDictUpdate acc (q :: rest) =
          pyDictUpdate (pyUpsert acc q.1 q.2) rest := rfl
      rw [hstep] at h
      rcases ih (pyUpsert acc q.1 q.2) p h with h1 | h2
      · rcases mem_pyUpsert acc q.1 q.2 p h1 with ha | hb
        · exact .inl ha
        · exact .inr (by simp [hb])
      · exact .inr (List.mem_cons_of_mem q h2)

/-- Every pair of `dict(items)` occurs literally in the stream. -/
theorem mem_pyDict (items : List (String × Json)) (p : String × Json)
    (h : p ∈ pyDict items) : p ∈ items := by
  rcases mem_pyDictUpdate_cases items [] p h with h1 | h2
  · simp at h1
  · exact h2

theorem lookupStr_append (a b : List (String × Json)) (k : String) :
    lookupStr (a ++ b) k =
      match lookupStr a k with
      | some v => some v
      | none => lookupStr b k := by
  induction a with
  | nil => simp [lookupStr]
  | cons p rest ih =>
      by_cases h : p.1 = k
      · simp [lookupStr, h]
      · simp [lookupStr, h, ih]

theorem lookupStr_eq_none_of_not_mem (acc : List (String × Json)) (k : String)
    (h : k ∉ acc.map Prod.fst) : lookupStr acc k = none := by
  induction acc with
  | nil => rfl
  | cons p rest ih =>
      rw [List.map_cons] at h
      have h1 : p.1 ≠ k := fun he => h (by simp [he])
      have h2 : k ∉ rest.map Prod.fst := fun hm => h (by simp [hm])
      simp [lookupStr, h1, ih h2]

theorem lookupStr_replace_ne (acc : List (String × Json)) (k0 : String) (v0 : Json)
    (k : String) (h : k ≠ k0) :
    lookupStr (acc.map (fun p => if p.1 = k0 then (k0, v0) else p)) k =
      lookupStr acc k := by
  induction acc with
  | nil => rfl
  | cons p rest ih =>
      by_cases hp : p.1 = k0
      · have : k0 ≠ k := fun he => h he.symm
        simp [lookupStr, hp, this, ih]
      · by_cases hk : p.1 = k
        · simp [lookupStr, hp, hk, h]
        · simp [lookupStr, hp, hk, ih]

theorem lookupStr_replace_eq (acc : List (String × Json)) (k0 : String) (v0 : Json)
    (h : k0 ∈ acc.map Prod.fst) :
    lookupStr (acc.map (fun p => if p.1 = k0 then (k0, v0) else p)) k0 =
      some v0 := by
  induction acc with
  | nil => simp at h
  | cons p rest ih =>
      by_cases hp : p.1 = k0
      · simp [lookupStr, hp]
      · have h2 : k0 ∈ rest.map Prod.fst := by
          simp at h
          rcases h with h1 | h1
          · exact absurd h1.symm (by simpa using hp)
          · simpa using h1
        simp [lookupStr, hp, ih h2]

theorem lookupStr_pyUpsert (acc : List (String × Json)) (k0 : String) (v0 : Json)
    (k : String) :
    lookupStr (pyUpsert acc k0 v0) k =
      if k = k0 then some v0 else lookupStr acc k := by
  by_cases hmem : k0 ∈ acc.map Prod.fst
  · simp only [pyUpsert, if_pos hmem]
    by_cases hk : k = k0
    · subst hk; simp [lookupStr_replace_eq acc k v0 hmem]
    · simp [hk, lookupStr_replace_ne acc k0 v0 k hk]
  · simp only [pyUpsert, if_neg hmem]
    rw [lookupStr_append]
    by_cases hk : k = k0
    · subst hk
      rw [lookupStr_eq_none_of_not_mem acc k hmem]
      simp [lookupStr]
    · have : k0 ≠ k := fun he => hk he.symm
      cases hcase : lookupStr acc k with
      | some v => simp [hcase, hk]
      | none => simp [hcase, lookupStr, this, hk]

theorem lookupStr_pyDictUpdate (items : List (String × Json)) :
    ∀ acc k, lookupStr (pyDictUpdate acc items) k =
      match lookupLast items k with
      | some v => some v
      | none => lookupStr acc k := by
  induction items with
  | nil => intro acc k; simp [pyDictUpdate, lookupLast]
  | cons p rest ih =>
      intro acc k
      have hstep : pyDictUpdate acc (p :: rest) =
          pyDictUpdate (pyUpsert acc p.1 p.2) rest := rfl
      rw [hstep, ih]
      cases hlast : lookupLast rest k with
      | some v => simp [lookupLast, hlast]
      | none =>
          rw [lookupStr_pyUpsert]
          by_cases hk : k = p.1
          · subst hk; simp [lookupLast, hlast]
          · have : p.1 ≠ k := fun he => hk he.symm
            simp [lookupLast, hlast, hk, this]

/-- Value semantics of `dict(items)`: the last pair with a given key wins. -/
theorem lookupStr_pyDict (items : List (String × Json)) (k : String) :
    lookupStr (pyDict items) k = lookupLast items k := by
  have h := lookupStr_pyDictUpdate items [] k
  cases hlast : lookupLast items k with
  | some v => simpa [pyDict, hlast] using h
  | none => simpa [pyDict, hlast, lookupStr] using h

mutual

/-- The scalar leaves of one item `(k, v)` of a nested block, each paired with
its key path from the block root (`k` prepended); non-mapping values (scalars
and lists) are leaves, nested mappings are walked recursively. -/
def leafItems (k : String) : Json → List (List String × Json)
  | .obj inner => (leavesList inner).map (fun pv => (k :: pv.1, pv.2))
  | x => [([k], x)]

/-- The scalar leaves of a nested mapping, in source order. -/
def leavesList : List (String × Json) → List (List String × Json)
  | [] => []
  | (k, v) :: rest => leafItems k v ++ leavesList rest

end

/-- The flat column name `_flatten_dict` computes for the leaf at `path` under
`parentKey`: path segments joined with `'_'`, each segment first title-cased
and then underscore-stripped. -/
def pathName (parentKey : String) (path : List String) : String :=
  path.foldl (fun acc s => joinKey acc (flatSeg s)) parentKey

mutual

theorem flattenValue_leaves (pk k : String) (v : Json)
    (h : ((leafItems k v).map (fun pv => pathName pk pv.1)).Nodup) :
    flattenValue (joinKey pk (flatSeg k)) v =
      (leafItems k v).map (fun pv => (pathName pk pv.1, pv.2)) := by
  cases v with
  | obj inner =>
      have h' : ((leavesList inner).map
          (fun pv => pathName (joinKey pk (flatSeg k)) pv.1)).Nodup := by
        simpa [leafItems, List.map_map, Function.comp, pathName, List.foldl] using h
      have ih := flattenItems_leaves (joinKey pk (flatSeg k)) inner h'
      calc flattenValue (joinKey pk (flatSeg k)) (.obj inner)
          = pyDict (flattenItems (joinKey pk (flatSeg k)) inner) := rfl
        _ = pyDict ((leavesList inner).map
              (fun pv => (pathName (joinKey pk (flatSeg k)) pv.1, pv.2))) := by rw [ih]
        _ = (leavesList inner).map
              (fun pv => (pathName (joinKey pk (flatSeg k)) pv.1, pv.2)) := by
              apply pyDict_of_nodup
              simpa [List.map_map, Function.comp] using h'
        _ = (leafItems k (.obj inner)).map (fun pv => (pathName pk pv.1, pv.2)) := by
              simp [leafItems, List.map_map, Function.comp, pathName, List.foldl]
  | str s => simp [flattenValue, leafItems, pathName, List.foldl]
  | num q => simp [flattenValue, leafItems, pathName, List.foldl]
  | bool b => simp [flattenValue, leafItems, pathName, List.foldl]
  | null => simp [flattenValue, leafItems, pathName, List.foldl]
  | arr l => simp [flattenValue, leafItems, pathName, List.foldl]

/-- When the computed column names of all leaves are pairwise distinct,
`_flatten_dict`'s item stream is exactly the leaf stream renamed by
`pathName` — every scalar leaf becomes one column with that name, in leaf
order. -/
theorem flattenItems_leaves (pk : String) (l : List (String × Json))
    (h : ((leavesList l).map (fun pv => pathName pk pv.1)).Nodup) :
    flattenItems pk l = (leavesList l).map (fun pv => (pathName pk pv.1, pv.2)) := by
  cases l with
  | nil => simp [flattenItems, leavesList]
  | cons p rest =>
      obtain ⟨k, v⟩ := p
      have hs : leavesList ((k, v) :: rest) = leafItems k v ++ leavesList rest := rfl
      rw [hs, List.map_append] at h
      have h1 : ((leafItems k v).map (fun pv => pathName pk pv.1)).Nodup :=
        (List.nodup_append.1 h).1
      have h2 : ((leavesList rest).map (fun pv => pathName pk pv.1)).Nodup :=
        (List.nodup_append.1 h).2.1
      have hmain := flattenValue_leaves pk k v h1
      have hrest := flattenItems_leaves pk rest h2
      have hstep : flattenItems pk ((k, v) :: rest) =
          flattenValue (joinKey pk (flatSeg k)) v ++ flattenItems pk rest := rfl
      rw [hstep, hmain, hrest, hs, List.map_append]

end

/-- The entry one loop iteration of `_handle_search` contributes when it does
not raise. -/
def processedEntry (store : List (String × Json)) (svc : Service) (nit : String) :
    Option ResultEntry :=
  match processNit store svc nit with
  | .ok o => o
  | .error _ => none

theorem runBatch_ok_eq (store : List (String × Json)) (svc : Service) :
    ∀ (nits : List String) (res : List ResultEntry),
      runBatch store svc nits = .ok res →
      res = nits.filterMap (processedEntry store svc) := by
  intro nits
  induction nits with
  | nil =>
      intro res h
      simp only [runBatch] at h
      cases h
      rfl
  | cons nit rest ih =>
      intro res h
      simp only [runBatch] at h
      cases hp : processNit store svc nit with
      | error e => rw [hp] at h; cases h
      | ok entry =>
          rw [hp] at h
          cases hr : runBatch store svc rest with
          | error e => rw [hr] at h; cases h
          | ok tail =>
              rw [hr] at h
              cases h
              have htail := ih tail hr
              cases entry with
              | some x => simp [List.filterMap_cons, processedEntry, hp, htail]
              | none => simp [List.filterMap_cons, processedEntry, hp, htail]

theorem lookupStr_mem (l : List (String × Json)) (k : String) (v : Json) :
    lookupStr l k = some v → (k, v) ∈ l := by
  induction l with
  | nil => intro h; cases h
  | cons p rest ih =>
      intro h
      by_cases hp : p.1 = k
      · simp only [lookupStr, if_pos hp] at h
        cases h
        subst hp
        exact List.mem_cons_self p rest
      · simp only [lookupStr, if_neg hp] at h
        exact List.mem_cons_of_mem p (ih h)

theorem mapExcept_mem {α : Type} (f : Json → Except String α) :
    ∀ (items : List Json) (out : List α), mapExcept f items = .ok out →
      ∀ y ∈ out, ∃ x ∈ items, f x = .ok y := by
  intro items
  induction items with
  | nil =>
      intro out h y hy
      simp only [mapExcept] at h
      cases h
      cases hy
  | cons x rest ih =>
      intro out h y hy
      simp only [mapExcept] at h
      cases hfx : f x with
      | error e => rw [hfx] at h; cases h
      | ok y0 =>
          rw [hfx] at h
          cases hrest : mapExcept f rest with
          | error e => rw [hrest] at h; cases h
          | ok ys =>
              rw [hrest] at h
              cases h
              rcases List.mem_cons.1 hy with hy1 | hy2
              · exact ⟨x, List.mem_cons_self x rest, hy1 ▸ hfx⟩
              · rcases ih ys hrest y hy2 with ⟨x2, hx2, hfx2⟩
                exact ⟨x2, List.mem_cons_of_mem x hx2, hfx2⟩

/-- Every pair of a store built by `load_local_benchmarks` has its key equal
to `str(...)` of the stored item's own nit field. -/
theorem store_key_of_build (data : Json) (store : List (String × Json))
    (h : buildBenchStore data = .ok store) :
    ∀ p ∈ store, benchKey p.2 = .ok p.1 := by
  intro p hp
  cases data with
  | arr items =>
      simp only [buildBenchStore] at h
      cases hm : mapExcept (fun it => (benchKey it).map (fun k => (k, it))) items with
      | error e => rw [hm] at h; cases h
      | ok pairs =>
          rw [hm] at h
          cases h
          have hp2 : p ∈ pairs := mem_pyDict pairs p hp
          rcases mapExcept_mem _ items pairs hm p hp2 with ⟨it, _, hfit⟩
          cases hb : benchKey it with
          | error e => rw [hb] at hfit; cases hfit
          | ok k0 =>
              rw [hb] at hfit
              simp only [Except.map] at hfit
              cases hfit
              simpa using hb
  | str s => simp [buildBenchStore] at h
  | num q => simp [buildBenchStore] at h
  | bool b => simp [buildBenchStore] at h
  | null => simp [buildBenchStore] at h
  | obj l => simp [buildBenchStore] at h

/-- If `localEntry` succeeds, the entry's tax id is `str(...)` of the item's
nit field — the same string `benchKey` computes. -/
theorem localEntry_externalId (item : Json) (e : ResultEntry) (k : String)
    (hloc : localEntry item = .ok e) (hkey : benchKey item = .ok k) :
    ∃ ci, e.companyInfo = some ci ∧ ci.externalId = k := by
  simp only [localEntry] at hloc
  simp only [benchKey] at hkey
  cases h1 : jsonGetE item "company_info" with
  | error e1 => rw [h1] at hloc; cases hloc
  | ok ci =>
      rw [h1] at hloc hkey
      dsimp only at hloc hkey
      cases h2 : jsonGetE ci "company_id" with
      | error e2 => rw [h2] at hloc; cases hloc
      | ok cid =>
          rw [h2] at hloc
          dsimp only at hloc
          cases h3 : jsonGetE ci "company_name" with
          | error e3 => rw [h3] at hloc; cases hloc
          | ok cname =>
              rw [h3] at hloc
              dsimp only at hloc
              cases h4 : jsonGetE ci "nit" with
              | error e4 => rw [h4] at hloc; cases hloc
              | ok cnit =>
                  rw [h4] at hloc hkey
                  dsimp only at hloc hkey
                  cases hloc
                  cases hkey
                  exact ⟨_, rfl, rfl⟩

/-- What one loop iteration contributes, characterized for each branch:
a cached id yields the cached entry independently of the service, a resolved
remote id yields the remote pair, an unresolved id yields nothing. -/
theorem processedEntry_shape (data : Json) (store : List (String × Json))
    (svc : Service) (nit : String) (e : ResultEntry)
    (hstore : buildBenchStore data = .ok store)
    (h : processedEntry store svc nit = some e) :
    ∃ ci, e.companyInfo = some ci ∧ ci.externalId = nit := by
  simp only [processedEntry] at h
  cases hp : processNit store svc nit with
  | error err => rw [hp] at h; cases h
  | ok o =>
      rw [hp] at h
      subst h
      simp only [processNit] at hp
      cases hl : lookupStr store nit with
      | some item =>
          rw [hl] at hp
          dsimp only at hp
          cases hloc : localEntry item with
          | error e1 => rw [hloc] at hp; cases hp
          | ok entry =>
              rw [hloc] at hp
              dsimp only at hp
              cases hp
              have hmem : (nit, item) ∈ store := lookupStr_mem store nit item hl
              have hkey := store_key_of_build data store hstore (nit, item) hmem
              exact localEntry_externalId item e nit hloc hkey
      | none =>
          rw [hl] at hp
          dsimp only at hp
          cases hf : findCompanyByExternalId svc nit with
          | some ci =>
              rw [hf] at hp
              dsimp only at hp
              cases hp
              refine ⟨ci, rfl, ?_⟩
              simp only [findCompanyByExternalId] at hf
              cases hmc : svc.matchCompany nit with
              | none => rw [hmc] at hf; cases hf
              | some p => rw [hmc] at hf; cases hf; rfl
          | none => rw [hf] at hp; cases hp

/-- An id found neither locally nor remotely contributes no entry. -/
theorem processedEntry_none (store : List (String × Json)) (svc : Service)
    (nit : String) (h1 : lookupStr store nit = none)
    (h2 : svc.matchCompany nit = none) :
    processedEntry store svc nit = none := by
  simp [processedEntry, processNit, h1, findCompanyByExternalId, h2]

/-- The known dual-spelling fields: each snake-case spelling mapped to its
camel-case equivalent, all other keys unchanged. -/
def snakeToCamel (k : String) : String :=
  if k = "industry_code" then "industryCode"
  else if k = "financial_scores" then "financialScores"
  else if k = "benchmark_score" then "benchmarkScore"
  else if k = "average_ranking" then "averageRanking"
  else if k = "company_count" then "companyCount"
  else if k = "risk_profile" then "riskProfile"
  else if k = "score_scale" then "scoreScale"
  else k

mutual

/-- Replace every known snake-case field spelling by its camel-case spelling,
at every nesting depth. -/
def renameJson : Json → Json
  | .obj l => .obj (renameObj l)
  | .arr l => .arr (renameArr l)
  | x => x

/-- `renameJson` on array elements. -/
def renameArr : List Json → List Json
  | [] => []
  | x :: rest => renameJson x :: renameArr rest

/-- `renameJson` on mapping items. -/
def renameObj : List (String × Json) → List (String × Json)
  | [] => []
  | (k, v) :: rest => (snakeToCamel k, renameJson v) :: renameObj rest

end

theorem snakeToCamel_ne_industry (k : String) :
    snakeToCamel k ≠ "industry_code" := by
  unfold snakeToCamel
  repeat' split
  all_goals first | assumption | decide

theorem snakeToCamel_eq_camel (k : String)
    (h : snakeToCamel k = "industryCode") :
    k = "industry_code" ∨ k = "industryCode" := by
  by_cases h1 : k = "industry_code"
  · exact .inl h1
  · right
    unfold snakeToCamel at h
    rw [if_neg h1] at h
    repeat' split at h
    all_goals first | assumption | (exact absurd h (by decide))

theorem lookupStr_renameObj_snake (l : List (String × Json)) :
    lookupStr (renameObj l) "industry_code" = none := by
  induction l with
  | nil => rfl
  | cons p rest ih =>
      obtain ⟨k, v⟩ := p
      simp only [renameObj, lookupStr]
      rw [if_neg (snakeToCamel_ne_industry k)]
      exact ih

theorem lookupStr_renameObj_camel (l : List (String × Json)) (v : Json)
    (hsnake : lookupStr l "industry_code" = some v)
    (hcamel : "industryCode" ∉ l.map Prod.fst) :
    lookupStr (renameObj l) "industryCode" = some (renameJson v) := by
  induction l with
  | nil => cases hsnake
  | cons p rest ih =>
      obtain ⟨k, v0⟩ := p
      rw [List.map_cons] at hcamel
      have hk : k ≠ "industryCode" := fun he => hcamel (by simp [he])
      have hrest : "industryCode" ∉ rest.map Prod.fst :=
        fun hm => hcamel (by simp [hm])
      by_cases hks : k = "industry_code"
      · subst hks
        simp only [lookupStr, if_pos rfl] at hsnake
        cases hsnake
        simp only [renameObj, lookupStr]
        rw [show snakeToCamel "industry_code" = "industryCode" from rfl]
        simp
      · simp only [lookupStr, if_neg hks] at hsnake
        simp only [renameObj, lookupStr]
        have hne : snakeToCamel k ≠ "industryCode" := by
          intro he
          rcases snakeToCamel_eq_camel k he with h1 | h1
          · exact hks h1
          · exact hk h1
        rw [if_neg hne]
        exact ih hsnake hrest

/-- On a block that spells its industry code in snake case with a truthy,
rename-invariant (scalar) value and does not also carry the camel-case key,
the per-industry tab label is unchanged by converting the block to camel
case. -/
theorem tabLabel_rename (imap : List (Json × Json)) (l : List (String × Json))
    (v : Json)
    (hsnake : lookupStr l "industry_code" = some v)
    (htruthy : pyTruthy v = true)
    (hscalar : renameJson v = v)
    (hcamel : "industryCode" ∉ l.map Prod.fst) :
    tabLabel imap (renameJson (.obj l)) = tabLabel imap (.obj l) := by
  have hrs : jsonGetD (renameJson (.obj l)) "industry_code" = .null := by
    simp [renameJson, jsonGetD, lookupStr_renameObj_snake]
  have hrc : jsonGetD (renameJson (.obj l)) "industryCode" = v := by
    simp [renameJson, jsonGetD, lookupStr_renameObj_camel l v hsnake hcamel, hscalar]
  have hos : jsonGetD (.obj l) "industry_code" = v := by simp [jsonGetD, hsnake]
  simp only [tabLabel, hrs, hrc, hos]
  have hnull : pyTruthy Json.null = false := rfl
  simp [pyOr, hnull, htruthy]

/-- `_prepare_data_for_excel` emits exactly the concatenation, in result
order, of each entry's rows. -/
theorem prepare_eq_flatten (imap : List (Json × Json)) (results : List ResultEntry) :
    prepareDataForExcel imap results =
      (results.map (rowsOfResult imap)).flatten := by
  have hgen : ∀ (rs : List ResultEntry) (acc : List (List (String × Json))),
      rs.foldl (fun a e => a ++ rowsOfResult imap e) acc =
        acc ++ (rs.map (rowsOfResult imap)).flatten := by
    intro rs
    induction rs with
    | nil => intro acc; simp
    | cons e rest ih =>
        intro acc
        simp only [List.foldl_cons, List.map_cons, List.flatten_cons, ih,
          List.append_assoc]
  simpa [prepareDataForExcel] using hgen results []

/-- Cached benchmark payload of the locally-known company in the end-to-end
scenario. -/
def scenarioLocalPayload : Json :=
  .obj [("risk_profile", .str "A"),
        ("financial_scores", .arr [.obj [("industry_code", .num 1010),
          ("benchmark", .obj [("risk", .str "A"),
            ("benchmark_score", .num 55), ("average_ranking", .num 120)])]])]

/-- The one record of the local cache file in the end-to-end scenario, for
tax id `"900123456"`. -/
def scenarioLocalItem : Json :=
  .obj [("company_info", .obj [("company_id", .num 1111),
          ("company_name", .str "Local Co"), ("nit", .str "900123456")]),
        ("benchmark_data", scenarioLocalPayload)]

/-- Parsed content of the local cache file in the scenario. -/
def scenarioData : Json := .arr [scenarioLocalItem]

/-- The Local Override Store `load_local_benchmarks` builds from
`scenarioData`. -/
def scenarioStore : List (String × Json) := [("900123456", scenarioLocalItem)]

/-- The one per-industry score block of the remote payload: scored 72.5 with
ranking 300 among 5000 (camel-case spellings, as the chart column constants
`Benchmark_Benchmarkscore` / `Benchmark_Averageranking` in
`render_summary_charts` presuppose). -/
def scenarioBlock : Json :=
  .obj [("industryCode", .num 2222),
        ("benchmark", .obj [("risk", .str "B"), ("benchmarkScore", .num 72.5),
          ("averageRanking", .num 300)]),
        ("period", .obj [("companyCount", .num 5000)])]

/-- The remote benchmark payload of company 4321 in the scenario. -/
def scenarioPayload : Json :=
  .obj [("companyId", .num 4321), ("riskProfile", .str "B"),
        ("financialScores", .arr [scenarioBlock])]

/-- The remote service of the scenario: `"800999999"` matches company 4321,
whose benchmark is `scenarioPayload`; everything else is unknown. -/
def scenarioService : Service where
  matchCompany := fun nit =>
    if nit = "800999999" then some (.num 4321, .str "Remote Co") else none
  getBenchmark := fun cid =>
    match cid with
    | .num q => if q = 4321 then scenarioPayload else .null
    | _ => .null

/-- The aggregated entry the scenario batch produces for the cached id. -/
def scenarioEntryLocal : ResultEntry :=
  ⟨some ⟨.num 1111, .str "Local Co", "900123456"⟩, scenarioLocalPayload⟩

/-- The aggregated entry the scenario batch produces for the remote id. -/
def scenarioEntryRemote : ResultEntry :=
  ⟨some ⟨.num 4321, .str "Remote Co", "800999999"⟩, scenarioPayload⟩

/-- A throwaway company identity for counterexample rows. -/
def sampleCompany : CompanyInfo := ⟨.num 1, .str "Co", "123"⟩

/-- A score block spelling its fields in snake case. -/
def sampleSnakeBlock : Json :=
  .obj [("industry_code", .num 111),
        ("benchmark", .obj [("benchmark_score", .num 72.5)])]

/-- The same block with every known field renamed to camel case. -/
def sampleCamelBlock : Json :=
  .obj [("industryCode", .num 111),
        ("benchmark", .obj [("benchmarkScore", .num 72.5)])]

/-- C1, counterexample: in the end-to-end scenario, the remote entry's
flattened row has NO column named `BenchmarkBenchmarkscore` and none named
`BenchmarkAverageranking` — the flattener joins the section prefix to the
leaf with an underscore, so the names the claim expects do not occur. -/
theorem C1_no_concatenated_column :
    (rowsOfResult [] scenarioEntryRemote).map
        (fun r => rowGet r "BenchmarkBenchmarkscore") = [none] ∧
    (rowsOfResult [] scenarioEntryRemote).map
        (fun r => rowGet r "BenchmarkAverageranking") = [none] :=
  ⟨rfl, rfl⟩

/-- C1 (amended): the scenario batch aggregates exactly two entries, and the
second entry's flattened row carries the benchmark score 72.5 under
`Benchmark_Benchmarkscore` and the ranking 300 (= 300.0) under
`Benchmark_Averageranking`; in general a scalar leaf's column name is the
path segments joined with `'_'`, each segment below the section root
title-cased and underscore-stripped (provided the names of distinct leaves do
not collide). -/
theorem C1_scenario_and_naming :
    runBatch scenarioStore scenarioService ["900123456", "800999999"] =
      .ok [scenarioEntryLocal, scenarioEntryRemote] ∧
    (rowsOfResult [] scenarioEntryRemote).map
        (fun r => rowGet r "Benchmark_Benchmarkscore") = [some (.num 72.5)] ∧
    (rowsOfResult [] scenarioEntryRemote).map
        (fun r => rowGet r "Benchmark_Averageranking") = [some (.num 300)] ∧
    ∀ (pk : String) (l : List (String × Json)),
      ((leavesList l).map (fun pv => pathName pk pv.1)).Nodup →
      flattenItems pk l = (leavesList l).map (fun pv => (pathName pk pv.1, pv.2)) :=
  ⟨rfl, rfl, rfl, fun pk l h => flattenItems_leaves pk l h⟩

/-- C1, witness: the naming rule applied to a concrete benchmark section. -/
theorem C1_scenario_and_naming_witness :
    flattenItems "Benchmark"
        [("benchmarkScore", .num 72.5), ("averageRanking", .num 300)] =
      [("Benchmark_Benchmarkscore", .num 72.5),
       ("Benchmark_Averageranking", .num 300)] := by
  have h := C1_scenario_and_naming.2.2.2 "Benchmark"
    [("benchmarkScore", .num 72.5), ("averageRanking", .num 300)] (by decide)
  exact h.trans rfl

/-- C2, counterexample: coercing a benchmark block whose score field holds
the string `"N/A"` raises `ValueError` (Python `float("N/A")`), rather than
yielding `0.0`. -/
theorem C2_na_raises :
    coerceScore (.obj [("benchmark_score", .str "N/A")]) = .error "ValueError" ∧
    coerceRanking (.obj [("average_ranking", .str "N/A")]) = .error "ValueError" :=
  ⟨rfl, rfl⟩

/-- C2 (amended): the coercions of `render_benchmark_data` yield `0.0` when
the selected benchmark-score / average-ranking value is falsy — in particular
when the field is absent (the `.get` default 0 applies) or `None` — but a
truthy non-numeric string such as `"N/A"` raises `ValueError` instead. -/
theorem C2_coercion_default (benchmarkInfo : Json)
    (hs : pyTruthy (selectScore benchmarkInfo) = false)
    (hr : pyTruthy (selectRanking benchmarkInfo) = false) :
    coerceScore benchmarkInfo = .ok 0 ∧ coerceRanking benchmarkInfo = .ok 0 := by
  constructor
  · simp [coerceScore, pyOr, hs, pyFloat]
  · simp [coerceRanking, pyOr, hr, pyFloat]

/-- C2, witness: a block with a null score and no ranking field coerces to
0.0 on both columns. -/
theorem C2_coercion_default_witness :
    coerceScore (.obj [("benchmark_score", .null), ("risk", .str "C")]) = .ok 0 ∧
    coerceRanking (.obj [("benchmark_score", .null), ("risk", .str "C")]) = .ok 0 :=
  C2_coercion_default (.obj [("benchmark_score", .null), ("risk", .str "C")]) rfl rfl

/-- C3: for every batch run over a store built by `load_local_benchmarks`
that finishes without an exception, the result list is exactly the in-order
`filterMap` of the per-id contribution (entries appear in input order), its
length is at most the input length, every entry carries a company identity
whose tax id is one of the inputs, and an id found neither locally nor
remotely contributes nothing — no placeholder. -/
theorem C3_batch_shape (data : Json) (store : List (String × Json))
    (svc : Service) (nits : List String) (res : List ResultEntry)
    (hstore : buildBenchStore data = .ok store)
    (hrun : runBatch store svc nits = .ok res) :
    res = nits.filterMap (processedEntry store svc) ∧
    res.length ≤ nits.length ∧
    (∀ e ∈ res, ∃ ci, e.companyInfo = some ci ∧ ci.externalId ∈ nits) ∧
    (∀ nit, lookupStr store nit = none → svc.matchCompany nit = none →
      processedEntry store svc nit = none) := by
  have heq := runBatch_ok_eq store svc nits res hrun
  refine ⟨heq, ?_, ?_, ?_⟩
  · rw [heq]
    exact List.length_filterMap_le _ _
  · intro e he
    rw [heq] at he
    rcases List.mem_filterMap.1 he with ⟨nit, hn, hpe⟩
    rcases processedEntry_shape data store svc nit e hstore hpe with ⟨ci, h1, h2⟩
    exact ⟨ci, h1, by rw [h2]; exact hn⟩
  · intro nit h1 h2
    exact processedEntry_none store svc nit h1 h2

/-- C3, witness: the scenario batch instantiates the shape theorem. -/
theorem C3_batch_shape_witness :
    ([scenarioEntryLocal, scenarioEntryRemote] : List ResultEntry).length ≤
      (["900123456", "800999999"] : List String).length :=
  (C3_batch_shape scenarioData scenarioStore scenarioService
    ["900123456", "800999999"] [scenarioEntryLocal, scenarioEntryRemote]
    rfl rfl).2.1

/-- C4: a tax id present in the Local Override Store makes no remote call at
all in its loop iteration, and its contribution to the result list is
identical under any two remote services — the entry is a function of the
cached record alone. -/
theorem C4_local_bypass (store : List (String × Json)) (svc : Service)
    (nit : String) (item : Json) (h : lookupStr store nit = some item) :
    processNitCalls store svc nit = [] ∧
    (∀ svc2 : Service, processNit store svc nit = processNit store svc2 nit) := by
  constructor
  · simp [processNitCalls, h]
  · intro svc2
    simp [processNit, h]

/-- C4, witness: the cached scenario id issues no remote call. -/
theorem C4_local_bypass_witness :
    processNitCalls scenarioStore scenarioService "900123456" = [] :=
  (C4_local_bypass scenarioStore scenarioService "900123456"
    scenarioLocalItem rfl).1

/-- C5, counterexample: a snake-case block and its camel-case renaming
produce the same tab label but DIFFERENT flattened column names
(`IndustryCode` / `Benchmark_BenchmarkScore` versus `Industrycode` /
`Benchmark_Benchmarkscore`), because `str.title()` treats the two spellings
differently. -/
theorem C5_column_names_differ :
    renameJson sampleSnakeBlock = sampleCamelBlock ∧
    tabLabel [] sampleSnakeBlock = tabLabel [] sampleCamelBlock ∧
    (rowOfScore [] sampleCompany sampleSnakeBlock).map Prod.fst ≠
      (rowOfScore [] sampleCompany sampleCamelBlock).map Prod.fst ∧
    (rowOfScore [] sampleCompany sampleSnakeBlock).map Prod.fst =
      ["NIT Buscado", "Nombre Empresa", "ID EMIS", "Nombre Industria",
       "IndustryCode", "Benchmark_BenchmarkScore"] ∧
    (rowOfScore [] sampleCompany sampleCamelBlock).map Prod.fst =
      ["NIT Buscado", "Nombre Empresa", "ID EMIS", "Nombre Industria",
       "Industrycode", "Benchmark_Benchmarkscore"] := by
  refine ⟨rfl, rfl, ?_, rfl, rfl⟩
  decide

/-- C5 (amended): renaming a block from snake case to camel case leaves the
per-industry tab label unchanged (whenever the renamed block does not already
carry the camel key and the code value is truthy and scalar), but flattened
column names differ between the two spellings in general. -/
theorem C5_tab_labels_agree (imap : List (Json × Json))
    (l : List (String × Json)) (v : Json)
    (hsnake : lookupStr l "industry_code" = some v)
    (htruthy : pyTruthy v = true)
    (hscalar : renameJson v = v)
    (hcamel : "industryCode" ∉ l.map Prod.fst) :
    tabLabel imap (renameJson (.obj l)) = tabLabel imap (.obj l) :=
  tabLabel_rename imap l v hsnake htruthy hscalar hcamel

/-- C5, witness: the label agreement at the concrete sample block. -/
theorem C5_tab_labels_agree_witness :
    tabLabel [] (renameJson sampleSnakeBlock) = tabLabel [] sampleSnakeBlock :=
  C5_tab_labels_agree []
    [("industry_code", .num 111), ("benchmark", .obj [("benchmark_score", .num 72.5)])]
    (.num 111) rfl rfl rfl (by decide)

/-- C6, counterexample: the two distinct one-segment paths `ab` and `AB`
title-case to the same flat name `Ab`, so flattening the block
`{'ab': 1, 'AB': 2}` yields a single column holding the later value — the
leaf 1 is silently overwritten. -/
theorem C6_collision :
    flatSeg "ab" = "Ab" ∧ flatSeg "AB" = "Ab" ∧
    flattenDict "" (.obj [("ab", .num 1), ("AB", .num 2)]) = [("Ab", .num 2)] :=
  ⟨rfl, rfl, rfl⟩

/-- C6 (amended): flattening IS order-preserving — the final columns are the
first-occurrence dedup of the leaf-stream's names, in first-seen order — but
it is not collision-free: when distinct paths map to the same name, the
column holds the LAST such leaf's value (CPython dict upsert). -/
theorem C6_order_preserved (parentKey : String) (l : List (String × Json)) :
    (flattenDict parentKey (.obj l)).map Prod.fst =
      firstDedup ((flattenItems parentKey l).map Prod.fst) ∧
    ∀ k, lookupStr (flattenDict parentKey (.obj l)) k =
      lookupLast (flattenItems parentKey l) k := by
  constructor
  · show (pyDict (flattenItems parentKey l)).map Prod.fst = _
    exact pyDict_map_fst _
  · intro k
    show lookupStr (pyDict (flattenItems parentKey l)) k = _
    exact lookupStr_pyDict _ k

/-- C7: page `k` (1-indexed) of a result list shows exactly the elements with
indices in `[(k-1)*10, min(k*10, N))`; with 23 results, pages 1, 2, 3 show
indices `[0,10)`, `[10,20)`, `[20,23)`. -/
theorem C7_pagination_window {α : Type} (page : Nat) (hpage : 1 ≤ page)
    (results : List α) (j : Nat) :
    ((pageSlice results page)[j]? =
      if (page - 1) * pageSizeConst + j < min (page * pageSizeConst) results.length
      then results[(page - 1) * pageSizeConst + j]? else none) ∧
    pageSlice (List.range 23) 1 = List.range' 0 10 ∧
    pageSlice (List.range 23) 2 = List.range' 10 10 ∧
    pageSlice (List.range 23) 3 = List.range' 20 3 := by
  refine ⟨?_, rfl, rfl, rfl⟩
  have htake : page * pageSizeConst - (page - 1) * pageSizeConst = pageSizeConst := by
    simp only [pageSizeConst]
    omega
  unfold pageSlice
  rw [htake, List.getElem?_take, List.getElem?_drop]
  by_cases hj : j < pageSizeConst
  · rw [if_pos hj]
    by_cases hlen : (page - 1) * pageSizeConst + j < results.length
    · have hc : (page - 1) * pageSizeConst + j <
          min (page * pageSizeConst) results.length := by
        rw [Nat.lt_min]
        refine ⟨?_, hlen⟩
        simp only [pageSizeConst] at hj ⊢
        omega
      rw [if_pos hc]
    · have hc : ¬ ((page - 1) * pageSizeConst + j <
          min (page * pageSizeConst) results.length) := by
        rw [Nat.lt_min]
        intro hcc
        exact hlen hcc.2
      rw [if_neg hc, List.getElem?_eq_none]
      omega
  · have hc : ¬ ((page - 1) * pageSizeConst + j <
        min (page * pageSizeConst) results.length) := by
      rw [Nat.lt_min]
      intro hcc
      have h1 := hcc.1
      simp only [pageSizeConst] at h1 hj
      omega
    rw [if_neg hj, if_neg hc]

/-- C7, witness: element 3 of page 2 of 23 results is result number 13. -/
theorem C7_pagination_window_witness :
    (pageSlice (List.range 23) 2)[3]? = some 13 := by
  have h := (C7_pagination_window 2 (by decide) (List.range 23) 3).1
  rw [h]
  decide

/-- C8: with at least one result, the current page stays confined to
`[1, ceil(N/P)]` under both navigation requests; the previous-page request at
page 1 and the next-page request at the last page are no-ops (the buttons are
disabled, clamping the page); and when everything fits on one page the
controls are hidden and navigation is a no-op. -/
theorem C8_navigation_clamps (totalResults pageSize current : Nat)
    (hN : 1 ≤ totalResults) (hP : 1 ≤ pageSize)
    (h1 : 1 ≤ current) (h2 : current ≤ totalPages totalResults pageSize) :
    (∀ ev : NavEvent, 1 ≤ navStep totalResults pageSize current ev ∧
      navStep totalResults pageSize current ev ≤ totalPages totalResults pageSize) ∧
    navStep totalResults pageSize 1 .prevPage = 1 ∧
    navStep totalResults pageSize (totalPages totalResults pageSize) .nextPage =
      totalPages totalResults pageSize ∧
    (totalPages totalResults pageSize = 1 →
      paginationVisible totalResults pageSize = false ∧
      ∀ ev : NavEvent, navStep totalResults pageSize current ev = current) := by
  have htp : 1 ≤ totalPages totalResults pageSize := by
    unfold totalPages
    rw [Nat.le_div_iff_mul_le hP]
    omega
  refine ⟨?_, ?_, ?_, ?_⟩
  · intro ev
    cases ev <;> simp only [navStep] <;> split_ifs <;> omega
  · simp only [navStep]
    split_ifs <;> omega
  · simp only [navStep]
    split_ifs <;> omega
  · intro htp1
    constructor
    · unfold paginationVisible
      simp [htp1]
    · intro ev
      cases ev <;> simp only [navStep] <;> rw [if_pos (by omega)]

/-- C8, witness: with 23 results and page size 10, pressing previous on
page 1 stays on page 1. -/
theorem C8_navigation_clamps_witness :
    navStep 23 10 1 .prevPage = 1 :=
  (C8_navigation_clamps 23 10 1 (by decide) (by decide) (by decide)
    (by decide)).2.1

/-- C9: when the benchmark-cache path and the industry-names path do not
exist in the filesystem, both loaders return the empty mapping instead of
raising. -/
theorem C9_missing_files_empty (fs : String → Option Json)
    (benchPath namesPath : String)
    (h1 : fs benchPath = none) (h2 : fs namesPath = none) :
    loadLocalBenchmarks fs benchPath = .ok [] ∧
    loadIndustryNames fs namesPath = .ok [] := by
  constructor
  · simp [loadLocalBenchmarks, h1]
  · simp [loadIndustryNames, h2]

/-- C9, witness: the loaders on an empty filesystem at the paths the app
uses. -/
theorem C9_missing_files_empty_witness :
    loadLocalBenchmarks (fun _ => none) "./data/benchmarks.json" = .ok [] ∧
    loadIndustryNames (fun _ => none) "./data/industries.json" = .ok [] :=
  C9_missing_files_empty (fun _ => none) "./data/benchmarks.json"
    "./data/industries.json" rfl rfl

/-- C10: the export rows are the in-order concatenation of each result's
rows; a result contributes rows only when it is truthy-payloaded, carries a
company identity, and its resolved financial-scores field (either spelling)
is a non-empty list; a result whose payload is falsy (`None`, `{}`) or whose
resolved score field is falsy contributes no row, so it is counted on screen
but absent from the spreadsheet. -/
theorem C10_export_requires_scores (imap : List (Json × Json))
    (results : List ResultEntry) (e : ResultEntry) (_hmem : e ∈ results) :
    prepareDataForExcel imap results = (results.map (rowsOfResult imap)).flatten ∧
    (rowsOfResult imap e ≠ [] →
      (∃ ci, e.companyInfo = some ci) ∧ pyTruthy e.benchmarkData = true ∧
      ∃ blocks, resolveScores e.benchmarkData = .arr blocks ∧ blocks ≠ []) ∧
    ((pyTruthy e.benchmarkData = false ∨
        pyTruthy (resolveScores e.benchmarkData) = false) →
      rowsOfResult imap e = []) := by
  refine ⟨prepare_eq_flatten imap results, ?_, ?_⟩
  · intro hne
    simp only [rowsOfResult] at hne
    by_cases hb : pyTruthy e.benchmarkData
    · rw [if_pos hb] at hne
      by_cases hf : pyTruthy (resolveScores e.benchmarkData)
      · rw [if_pos hf] at hne
        cases hci : e.companyInfo with
        | none => rw [hci] at hne; exact absurd rfl hne
        | some ci =>
            rw [hci] at hne
            dsimp only at hne
            cases hres : resolveScores e.benchmarkData with
            | arr blocks =>
                rw [hres] at hne
                dsimp only at hne
                refine ⟨⟨ci, rfl⟩, hb, blocks, rfl, ?_⟩
                intro hempty
                rw [hempty] at hne
                exact hne rfl
            | str s => rw [hres] at hne; exact absurd rfl hne
            | num q => rw [hres] at hne; exact absurd rfl hne
            | bool b => rw [hres] at hne; exact absurd rfl hne
            | null => rw [hres] at hne; exact absurd rfl hne
            | obj l => rw [hres] at hne; exact absurd rfl hne
      · rw [if_neg hf] at hne
        exact absurd rfl hne
    · rw [if_neg hb] at hne
      exact absurd rfl hne
  · intro hcase
    simp only [rowsOfResult]
    rcases hcase with hc | hc
    · rw [if_neg (by simp [hc])]
    · by_cases hb : pyTruthy e.benchmarkData
      · rw [if_pos hb, if_neg (by simp [hc])]
      · rw [if_neg hb]

/-- C10, witness: a result whose payload is `None` is counted among the
results yet contributes no spreadsheet row. -/
theorem C10_export_requires_scores_witness :
    rowsOfResult [] (⟨some sampleCompany, .null⟩ : ResultEntry) = [] :=
  (C10_export_requires_scores [] [⟨some sampleCompany, .null⟩]
    ⟨some sampleCompany, .null⟩ (List.mem_cons_self _ _)).2.2 (.inl rfl)
